import Mathlib

/-
Verification of the report-extraction and formatting engine of execexam.

The definitions below are a shallow embedding of `src/execexam/main.py`.
Python `pathlib.Path` objects are modelled by `PPath` (an absolute flag plus
the list of name segments, so that `PPath.parts` matches `Path.parts`, whose
first element is "/" for an absolute path).  Python dictionaries that the
code iterates over are modelled as association lists (insertion order is
iteration order); dictionary values are modelled by their rendered string
form, since the code only ever interpolates them into f-strings.  A Python
`KeyError` raised by a subscript on a missing key is modelled by
`Except.error (PyError.keyError key)`; fields that the code subscripts and
that may be absent in a report are `Option`s.
-/

namespace Execexam

/-- Model of a `pathlib.PurePosixPath`: absolute flag plus name segments. -/
structure PPath where
  absolute : Bool
  segments : List String
deriving DecidableEq

/-- `Path.parts`: for an absolute path the first part is the root "/". -/
def PPath.parts (p : PPath) : List String :=
  (if p.absolute then ["/"] else []) ++ p.segments

/-- `Path.as_posix()`: forward-slash joined form; the empty relative path
renders as ".". -/
def PPath.as_posix (p : PPath) : String :=
  if p.absolute then "/" ++ String.intercalate "/" p.segments
  else if p.segments.isEmpty then "." else String.intercalate "/" p.segments

/-- Embedding of `path_to_string` (main.py lines 28-34): if the path has more
than `levels` parts, build `Path("<...>", *parts[-levels:])` and render it,
else render the path unchanged. -/
def path_to_string (path_name : PPath) (levels : Nat) : String :=
  let parts := path_name.parts
  if parts.length > levels then
    PPath.as_posix (PPath.mk false ("<...>" :: parts.drop (parts.length - levels)))
  else
    PPath.as_posix path_name

/-- Embedding of `extract_details` (main.py lines 37-43): append "value key"
for each entry in iteration order, join with ", ", and put "Details: " in
front unconditionally. -/
def extract_details (details : List (String × String)) : String :=
  "Details: " ++ String.intercalate ", " (details.map (fun kv => kv.2 ++ " " ++ kv.1))

/-- A Python KeyError raised by a dictionary subscript on a missing key. -/
inductive PyError where
  | keyError (key : String)
deriving DecidableEq

/-- The `crash` object of a failing test's `call` record. -/
structure CrashRec where
  path : PPath
  lineno : Nat
  message : String
deriving DecidableEq

/-- The `call` record of a test case; `crash` may be absent. -/
structure CallRec where
  crash : Option CrashRec
deriving DecidableEq

/-- One test-case record of the report; `call` may be absent. -/
structure TestRec where
  nodeid : String
  outcome : String
  call : Option CallRec
deriving DecidableEq

/-- The JSON report: top-level `summary` and `tests` keys, either of which a
malformed report may lack. -/
structure Report where
  summary : Option (List (String × String))
  tests : Option (List TestRec)
deriving DecidableEq

/-- Embedding of `extract_test_run_details` (main.py lines 46-53):
`details["summary"]` (KeyError when absent) fed to `extract_details`. -/
def extract_test_run_details (details : Report) : Except PyError String :=
  match details.summary with
  | none => Except.error (PyError.keyError "summary")
  | some summary_details => Except.ok (extract_details summary_details)

/-- The loop body of `extract_failing_test_details` (main.py lines 69-89):
walk the test records, and for each one with outcome "failed" append the
Name/Path/Line number/Message lines to the accumulator string and overwrite
the single remembered path; subscripting a missing `call` or `crash` raises. -/
def extractFailingLoop :
    List TestRec → String → Option PPath → Except PyError (String × Option PPath)
  | [], failing_details_str, failing_test_path =>
    Except.ok (failing_details_str, failing_test_path)
  | test :: rest, failing_details_str, failing_test_path =>
    if test.outcome == "failed" then
      let s1 := failing_details_str ++ ("  Name: " ++ test.nodeid ++ "\n")
      match test.call with
      | none => Except.error (PyError.keyError "call")
      | some failing_test_call =>
        match failing_test_call.crash with
        | none => Except.error (PyError.keyError "crash")
        | some failing_test_crash =>
          let s2 := s1 ++ ("  Path: " ++ path_to_string failing_test_crash.path 4 ++ "\n")
          let s3 := s2 ++ ("  Line number: " ++ toString failing_test_crash.lineno ++ "\n")
          let s4 := s3 ++ ("  Message: " ++ failing_test_crash.message ++ "\n")
          extractFailingLoop rest s4 (some failing_test_crash.path)
    else
      extractFailingLoop rest failing_details_str failing_test_path

/-- Embedding of `extract_failing_test_details` (main.py lines 56-91): the
accumulator starts as the single newline sentinel and the remembered path as
`None`; the result is the pair of the accumulated string and the last
remembered path. -/
def extract_failing_test_details (details : Report) :
    Except PyError (String × Option PPath) :=
  match details.tests with
  | none => Except.error (PyError.keyError "tests")
  | some tests => extractFailingLoop tests "\n" none

/-- Embedding of `is_failing_test_details_empty` (main.py lines 94-98):
an identity check against the single-newline sentinel. -/
def is_failing_test_details_empty (details : String) : Bool :=
  if details == "\n" then true else false

/-- The crash record reached by `test["call"]["crash"]`, when both exist. -/
def crashOf (test : TestRec) : Option CrashRec :=
  test.call.bind CallRec.crash

/-- The four-line detail block one failing test contributes to the display
string (each line two-space indented, block terminated by a newline). -/
def failBlock (test : TestRec) (crash : CrashRec) : String :=
  ("  Name: " ++ test.nodeid ++ "\n") ++
  ("  Path: " ++ path_to_string crash.path 4 ++ "\n") ++
  ("  Line number: " ++ toString crash.lineno ++ "\n") ++
  ("  Message: " ++ crash.message ++ "\n")

/-- Concatenation, in report order and with no separator, of the detail
blocks of the failing tests (tests without crash data contribute nothing
here; on such input the extractor errors instead). -/
def failBlocks : List TestRec → String
  | [] => ""
  | test :: rest =>
    (if test.outcome == "failed" then
      match crashOf test with
      | some crash => failBlock test crash
      | none => ""
    else "") ++ failBlocks rest

/-- One step of the remembered-path update: a failing test with crash data
overwrites the remembered path, every other test leaves it unchanged. -/
def lastStep (acc : Option PPath) (test : TestRec) : Option PPath :=
  if test.outcome == "failed" then
    match crashOf test with
    | some crash => some crash.path
    | none => acc
  else acc

/-- The crash path of the last failing test in report order, if any: each
failing test with crash data overwrites the remembered path. -/
def lastFailedCrashPath (tests : List TestRec) : Option PPath :=
  tests.foldl lastStep none

/-- Every successful run of the extraction loop appends exactly the failing
tests' detail blocks, in order and with no separator, to the accumulator. -/
theorem extractFailingLoop_ok_fst (ts : List TestRec) :
    ∀ (acc : String) (p0 : Option PPath) (s : String) (q : Option PPath),
      extractFailingLoop ts acc p0 = Except.ok (s, q) → s = acc ++ failBlocks ts := by
  induction ts with
  | nil =>
    intro acc p0 s q h
    simp only [extractFailingLoop, Except.ok.injEq, Prod.mk.injEq] at h
    simp [failBlocks, h.1.symm, String.append_empty]
  | cons test rest ih =>
    intro acc p0 s q h
    by_cases hf : (test.outcome == "failed") = true
    · cases hc : test.call with
      | none => simp [extractFailingLoop, hf, hc] at h
      | some c =>
        cases hcr : c.crash with
        | none => simp [extractFailingLoop, hf, hc, hcr] at h
        | some cr =>
          simp only [extractFailingLoop, hf, hc, hcr, if_true] at h
          have hs := ih _ _ _ _ h
          rw [hs]
          have hcro : crashOf test = some cr := by simp [crashOf, hc, hcr]
          simp only [failBlocks, hcro, hf, if_true]
          simp only [failBlock, String.append_assoc]
    · simp only [extractFailingLoop, hf, if_false, Bool.false_eq_true] at h
      have hs := ih _ _ _ _ h
      rw [hs]
      simp [failBlocks, hf]

/-- Every successful run of the extraction loop returns as path the fold of
the remembered-path update over the test records. -/
theorem extractFailingLoop_ok_snd (ts : List TestRec) :
    ∀ (acc : String) (p0 : Option PPath) (s : String) (q : Option PPath),
      extractFailingLoop ts acc p0 = Except.ok (s, q) → q = ts.foldl lastStep p0 := by
  induction ts with
  | nil =>
    intro acc p0 s q h
    simp only [extractFailingLoop, Except.ok.injEq, Prod.mk.injEq] at h
    simp [List.foldl, h.2.symm]
  | cons test rest ih =>
    intro acc p0 s q h
    by_cases hf : (test.outcome == "failed") = true
    · cases hc : test.call with
      | none => simp [extractFailingLoop, hf, hc] at h
      | some c =>
        cases hcr : c.crash with
        | none => simp [extractFailingLoop, hf, hc, hcr] at h
        | some cr =>
          simp only [extractFailingLoop, hf, hc, hcr, if_true] at h
          have hq := ih _ _ _ _ h
          rw [hq]
          simp [List.foldl, lastStep, crashOf, hf, hc, hcr]
    · simp only [extractFailingLoop, hf, if_false, Bool.false_eq_true] at h
      have hq := ih _ _ _ _ h
      rw [hq]
      simp [List.foldl, lastStep, hf]

/-- Dropping the test records whose outcome is not "failed" does not change
the extraction loop at all. -/
theorem extractFailingLoop_filter (ts : List TestRec) :
    ∀ (acc : String) (p0 : Option PPath),
      extractFailingLoop (ts.filter (fun t => t.outcome == "failed")) acc p0
        = extractFailingLoop ts acc p0 := by
  induction ts with
  | nil => intro acc p0; rfl
  | cons test rest ih =>
    intro acc p0
    by_cases hf : (test.outcome == "failed") = true
    · simp only [List.filter_cons, hf, if_true]
      cases hc : test.call with
      | none => simp [extractFailingLoop, hf, hc]
      | some c =>
        cases hcr : c.crash with
        | none => simp [extractFailingLoop, hf, hc, hcr]
        | some cr => simp [extractFailingLoop, hf, hc, hcr, ih]
    · simp only [List.filter_cons, hf, Bool.false_eq_true, if_false]
      have hskip : extractFailingLoop (test :: rest) acc p0 = extractFailingLoop rest acc p0 := by
        simp [extractFailingLoop, hf]
      rw [hskip]
      exact ih acc p0

/-- If some test record in the list is marked "failed" but has no reachable
crash data, the extraction loop fails with an error. -/
theorem extractFailingLoop_err (ts : List TestRec) :
    ∀ (acc : String) (p0 : Option PPath) (t : TestRec),
      t ∈ ts → t.outcome = "failed" → crashOf t = none →
      ∃ e, extractFailingLoop ts acc p0 = Except.error e := by
  induction ts with
  | nil => intro acc p0 t hmem; exact absurd hmem (List.not_mem_nil t)
  | cons test rest ih =>
    intro acc p0 t hmem hout hcrash
    rcases List.mem_cons.mp hmem with heq | htail
    · subst heq
      have hf : (t.outcome == "failed") = true := by simp [hout]
      cases hc : t.call with
      | none => exact ⟨PyError.keyError "call", by simp [extractFailingLoop, hf, hc]⟩
      | some c =>
        cases hcr : c.crash with
        | none => exact ⟨PyError.keyError "crash", by simp [extractFailingLoop, hf, hc, hcr]⟩
        | some cr =>
          exfalso
          simp [crashOf, hc, hcr] at hcrash
    · by_cases hf : (test.outcome == "failed") = true
      · cases hc : test.call with
        | none => exact ⟨PyError.keyError "call", by simp [extractFailingLoop, hf, hc]⟩
        | some c =>
          cases hcr : c.crash with
          | none => exact ⟨PyError.keyError "crash", by simp [extractFailingLoop, hf, hc, hcr]⟩
          | some cr =>
            obtain ⟨e, he⟩ :=
              ih (acc ++ ("  Name: " ++ test.nodeid ++ "\n") ++
                    ("  Path: " ++ path_to_string cr.path 4 ++ "\n") ++
                    ("  Line number: " ++ toString cr.lineno ++ "\n") ++
                    ("  Message: " ++ cr.message ++ "\n"))
                (some cr.path) t htail hout hcrash
            exact ⟨e, by simp [extractFailingLoop, hf, hc, hcr, he]⟩
      · obtain ⟨e, he⟩ := ih acc p0 t htail hout hcrash
        exact ⟨e, by simp [extractFailingLoop, hf, he]⟩

/-- The remembered-path fold is the identity on lists without failing tests. -/
theorem foldl_lastStep_of_no_failed (ts : List TestRec) :
    ∀ (p0 : Option PPath), (∀ t ∈ ts, t.outcome ≠ "failed") →
      ts.foldl lastStep p0 = p0 := by
  induction ts with
  | nil => intro p0 _; rfl
  | cons test rest ih =>
    intro p0 hall
    have hf : (test.outcome == "failed") = false := by
      simpa using hall test (List.mem_cons_self test rest)
    rw [List.foldl_cons]
    rw [show lastStep p0 test = p0 by simp [lastStep, hf]]
    exact ih p0 (fun t ht => hall t (List.mem_cons_of_mem test ht))

/-- Modelled from the spec: `extract_test_assertion_details` lives in the
repository module `execexam/extract.py`, which is not under src/ (only
src/tests/test_extract.py imports it).  Spec section 4.3: render each
key/value of one assertion record as "  - key: value\n" for the first entry
and "    key: value\n" for all subsequent entries, preserving the mapping's
own key order. -/
def extract_test_assertion_details : List (String × String) → String
  | [] => ""
  | (k, v) :: rest =>
    "  - " ++ k ++ ": " ++ v ++ "\n" ++
    String.join (rest.map (fun kv => "    " ++ kv.1 ++ ": " ++ kv.2 ++ "\n"))

/-- Modelled from the spec: `extract_test_assertion_details_list` lives in
the repository module `execexam/extract.py`, which is not under src/.  Spec
section 4.3: concatenate the block of each assertion mapping in sequence
order, with no separators beyond what each block already emits. -/
def extract_test_assertion_details_list : List (List (String × String)) → String
  | [] => ""
  | a :: rest =>
    extract_test_assertion_details a ++ extract_test_assertion_details_list rest

/-- C1: evaluation of the code at a concrete report shaped like the
repository's own test input (crash path made explicit): the second component
of the result of extract_failing_test_details is one single optional path,
not an ordered list of test-name/test-path records, so there is no
structured list to stand in 1:1 correspondence with the display string. -/
theorem failing_details_second_component_is_single_path :
    extract_failing_test_details
        (Report.mk none (some
          [TestRec.mk "test_module.py::test_function" "failed"
              (some (CallRec.mk (some (CrashRec.mk
                (PPath.mk true ["home", "user", "project", "test_module.py"]) 10 "AssertionError")))),
           TestRec.mk "test_module.py::test_function2" "passed"
              (some (CallRec.mk (some (CrashRec.mk
                (PPath.mk true ["home", "user", "project", "test_module.py"]) 20 "AssertionError"))))]))
      = Except.ok
          ("\n  Name: test_module.py::test_function\n  Path: <...>/home/user/project/test_module.py\n  Line number: 10\n  Message: AssertionError\n",
           some (PPath.mk true ["home", "user", "project", "test_module.py"])) := by
  rfl

/-- C2: evaluation of the code at a report with one passed and no failed
test: the string result is exactly the single-newline sentinel, the second
component is none (not an empty list), and is_failing_test_details_empty is
an identity check against the sentinel, so it rejects the empty string. -/
theorem no_failures_newline_sentinel :
    extract_failing_test_details (Report.mk none (some [TestRec.mk "m.py::tp" "passed" none]))
        = Except.ok ("\n", none)
      ∧ is_failing_test_details_empty "\n" = true
      ∧ is_failing_test_details_empty "" = false :=
  ⟨rfl, rfl, rfl⟩

/-- C3: evaluation of the code at the empty mapping: extract_details of an
empty mapping is the bare "Details: " marker, not the empty string, and the
same shows through extract_test_run_details on an empty summary. -/
theorem extract_details_empty_mapping_eval :
    extract_details [] = "Details: "
      ∧ extract_test_run_details (Report.mk (some []) none) = Except.ok "Details: " :=
  ⟨rfl, rfl⟩

/-- C4: a test record marked "failed" whose crash data is unreachable makes
the failing-test extractor return an error (the subscript on the missing
call or crash key raises), and a report without the top-level summary makes
the summary extractor return the KeyError for "summary"; in both cases the
error is the function's result, so it is not silently swallowed. -/
theorem extract_errors_are_raised :
    (∀ (r : Report) (ts : List TestRec) (t : TestRec),
        r.tests = some ts → t ∈ ts → t.outcome = "failed" → crashOf t = none →
        ∃ e, extract_failing_test_details r = Except.error e)
    ∧ (∀ r : Report, r.summary = none →
        extract_test_run_details r = Except.error (PyError.keyError "summary")) := by
  constructor
  · intro r ts t hts hmem hout hcrash
    obtain ⟨e, he⟩ := extractFailingLoop_err ts "\n" none t hmem hout hcrash
    exact ⟨e, by simp [extract_failing_test_details, hts, he]⟩
  · intro r hs
    simp [extract_test_run_details, hs]

theorem extract_errors_are_raised_witness :
    (∃ e, extract_failing_test_details
        (Report.mk none (some [TestRec.mk "m.py::tf" "failed" none])) = Except.error e)
    ∧ extract_test_run_details (Report.mk none none)
        = Except.error (PyError.keyError "summary") :=
  ⟨extract_errors_are_raised.1
      (Report.mk none (some [TestRec.mk "m.py::tf" "failed" none]))
      [TestRec.mk "m.py::tf" "failed" none]
      (TestRec.mk "m.py::tf" "failed" none) rfl (by simp) rfl rfl,
   extract_errors_are_raised.2 (Report.mk none none) rfl⟩

/-- C5 counterexample: on a report with two failing tests the display string
puts the second block immediately after the first one; the string differs
from the variant that separates the two blocks with a blank line. -/
theorem failing_blocks_have_no_blank_separator :
    extract_failing_test_details (Report.mk none (some
        [TestRec.mk "m.py::t1" "failed"
            (some (CallRec.mk (some (CrashRec.mk (PPath.mk false ["m.py"]) 1 "boom")))),
         TestRec.mk "m.py::t2" "failed"
            (some (CallRec.mk (some (CrashRec.mk (PPath.mk false ["m.py"]) 2 "bang"))))]))
      = Except.ok
          ("\n  Name: m.py::t1\n  Path: m.py\n  Line number: 1\n  Message: boom\n  Name: m.py::t2\n  Path: m.py\n  Line number: 2\n  Message: bang\n",
           some (PPath.mk false ["m.py"]))
    ∧ "\n  Name: m.py::t1\n  Path: m.py\n  Line number: 1\n  Message: boom\n  Name: m.py::t2\n  Path: m.py\n  Line number: 2\n  Message: bang\n"
        ≠ "\n  Name: m.py::t1\n  Path: m.py\n  Line number: 1\n  Message: boom\n\n  Name: m.py::t2\n  Path: m.py\n  Line number: 2\n  Message: bang\n" :=
  ⟨rfl, by decide⟩

/-- C5 (amended): each failing test contributes, in fixed order, the lines
"  Name: nodeid", "  Path: elided crash path", "  Line number: lineno" and
"  Message: message", each on its own line, and consecutive failing-test
blocks are concatenated directly, with no blank line between them: every
successful result's display string is the newline sentinel followed by the
concatenation of the failing tests' four-line blocks in report order. -/
theorem failing_details_block_structure (r : Report) (ts : List TestRec)
    (s : String) (p : Option PPath) (hts : r.tests = some ts)
    (hok : extract_failing_test_details r = Except.ok (s, p)) :
    s = "\n" ++ failBlocks ts := by
  have h : extractFailingLoop ts "\n" none = Except.ok (s, p) := by
    simpa [extract_failing_test_details, hts] using hok
  exact extractFailingLoop_ok_fst ts "\n" none s p h

theorem failing_details_block_structure_witness :
    "\n  Name: m.py::t1\n  Path: m.py\n  Line number: 1\n  Message: boom\n  Name: m.py::t2\n  Path: m.py\n  Line number: 2\n  Message: bang\n"
      = "\n" ++ failBlocks
          [TestRec.mk "m.py::t1" "failed"
              (some (CallRec.mk (some (CrashRec.mk (PPath.mk false ["m.py"]) 1 "boom")))),
           TestRec.mk "m.py::t2" "failed"
              (some (CallRec.mk (some (CrashRec.mk (PPath.mk false ["m.py"]) 2 "bang"))))] :=
  failing_details_block_structure
    (Report.mk none (some
        [TestRec.mk "m.py::t1" "failed"
            (some (CallRec.mk (some (CrashRec.mk (PPath.mk false ["m.py"]) 1 "boom")))),
         TestRec.mk "m.py::t2" "failed"
            (some (CallRec.mk (some (CrashRec.mk (PPath.mk false ["m.py"]) 2 "bang"))))]))
    [TestRec.mk "m.py::t1" "failed"
        (some (CallRec.mk (some (CrashRec.mk (PPath.mk false ["m.py"]) 1 "boom")))),
     TestRec.mk "m.py::t2" "failed"
        (some (CallRec.mk (some (CrashRec.mk (PPath.mk false ["m.py"]) 2 "bang"))))]
    "\n  Name: m.py::t1\n  Path: m.py\n  Line number: 1\n  Message: boom\n  Name: m.py::t2\n  Path: m.py\n  Line number: 2\n  Message: bang\n"
    (some (PPath.mk false ["m.py"])) rfl rfl

/-- C6: on a non-empty path, path_to_string returns the path unchanged
(forward-slash joined) when the part count is at most the depth, and
otherwise returns the literal marker segment "<...>" followed by exactly
the last depth parts, forward-slash joined; those trailing parts are kept
verbatim (they are a suffix of the original part list of full length). -/
theorem path_to_string_elision (p : PPath) (N : Nat) (_hne : p.parts ≠ []) :
    (p.parts.length ≤ N → path_to_string p N = p.as_posix)
    ∧ (N < p.parts.length →
        path_to_string p N
            = String.intercalate "/" ("<...>" :: p.parts.drop (p.parts.length - N))
          ∧ (p.parts.drop (p.parts.length - N)).length = N
          ∧ p.parts.drop (p.parts.length - N) <:+ p.parts) := by
  constructor
  · intro hle
    have hngt : ¬ p.parts.length > N := not_lt.mpr hle
    simp [path_to_string, hngt]
  · intro hlt
    refine ⟨?_, ?_, ?_⟩
    · simp [path_to_string, hlt, PPath.as_posix]
    · rw [List.length_drop]; omega
    · exact List.drop_suffix _ _

theorem path_to_string_elision_witness :
    path_to_string (PPath.mk true ["a", "b", "c", "d", "e"]) 4
      = String.intercalate "/"
          ("<...>" :: (PPath.parts (PPath.mk true ["a", "b", "c", "d", "e"])).drop
            ((PPath.parts (PPath.mk true ["a", "b", "c", "d", "e"])).length - 4)) :=
  ((path_to_string_elision (PPath.mk true ["a", "b", "c", "d", "e"]) 4 (by decide)).2
    (by decide)).1

/-- C7: when the summary mapping is present, the summary extractor returns
exactly the detail formatter applied to that mapping, and the formatter
renders precisely the mapping's own entries, as "value key" pairs joined in
the mapping's iteration order, with no filtering, reordering or
defaulting. -/
theorem summary_is_detail_passthrough (r : Report) (m : List (String × String))
    (hm : r.summary = some m) :
    extract_test_run_details r = Except.ok (extract_details m)
    ∧ extract_details m
        = "Details: " ++ String.intercalate ", " (m.map (fun kv => kv.2 ++ " " ++ kv.1)) :=
  ⟨by simp [extract_test_run_details, hm], rfl⟩

theorem summary_is_detail_passthrough_witness :
    extract_test_run_details
        (Report.mk (some [("passed", "2"), ("total", "2"), ("collected", "2")]) none)
      = Except.ok (extract_details [("passed", "2"), ("total", "2"), ("collected", "2")]) :=
  (summary_is_detail_passthrough
      (Report.mk (some [("passed", "2"), ("total", "2"), ("collected", "2")]) none)
      [("passed", "2"), ("total", "2"), ("collected", "2")] rfl).1

/-- C8: test records whose outcome is not "failed" contribute nothing to
either component of the failing-test extraction, whether or not they carry
crash data: removing every such record from the report leaves the entire
result unchanged. -/
theorem non_failed_tests_contribute_nothing (r : Report) :
    extract_failing_test_details
        (Report.mk r.summary (r.tests.map (fun ts => ts.filter (fun t => t.outcome == "failed"))))
      = extract_failing_test_details r := by
  cases hts : r.tests with
  | none => simp [extract_failing_test_details, hts]
  | some ts => simp [extract_failing_test_details, hts, extractFailingLoop_filter]

/-- C9: the one-block assertion formatter renders the first entry as
"  - key: value" and each later entry as "    key: value", one line each,
in the mapping's own order, and the list-level formatter concatenates the
blocks in sequence order with no separator: it is an append homomorphism
whose singleton case is the one-block formatter, and on the repository
test's two-block input it yields two bulleted blocks with no blank line
between them. -/
theorem assertion_block_rendering :
    extract_test_assertion_details_list
        [[("assertion1", "value1"), ("assertion2", "value2")],
         [("assertion3", "value3"), ("assertion4", "value4")]]
      = "  - assertion1: value1\n    assertion2: value2\n  - assertion3: value3\n    assertion4: value4\n"
    ∧ (∀ (l1 l2 : List (List (String × String))),
        extract_test_assertion_details_list (l1 ++ l2)
          = extract_test_assertion_details_list l1 ++ extract_test_assertion_details_list l2)
    ∧ (∀ (b : List (String × String)),
        extract_test_assertion_details_list [b] = extract_test_assertion_details b)
    ∧ (∀ (k v : String) (rest : List (String × String)),
        extract_test_assertion_details ((k, v) :: rest)
          = ("  - " ++ k ++ ": " ++ v ++ "\n") ++
            String.join (rest.map (fun kv => "    " ++ kv.1 ++ ": " ++ kv.2 ++ "\n"))) := by
  refine ⟨rfl, ?_, ?_, ?_⟩
  · intro l1 l2
    induction l1 with
    | nil => simp [extract_test_assertion_details_list, String.empty_append]
    | cons a rest ih =>
      simp [extract_test_assertion_details_list, ih, String.append_assoc]
  · intro b
    simp [extract_test_assertion_details_list, String.append_empty]
  · intro k v rest
    rfl

/-- C10: the second component of a successful failing-test extraction is
the single remembered path: the crash path of the last failing test in
report order (each failing test overwrites it), and it is none when no test
record has outcome "failed". -/
theorem failing_test_path_is_last_overwrite (r : Report) (ts : List TestRec)
    (s : String) (p : Option PPath) (hts : r.tests = some ts)
    (hok : extract_failing_test_details r = Except.ok (s, p)) :
    p = lastFailedCrashPath ts
    ∧ ((∀ t ∈ ts, t.outcome ≠ "failed") → p = none) := by
  have h : extractFailingLoop ts "\n" none = Except.ok (s, p) := by
    simpa [extract_failing_test_details, hts] using hok
  have h2 := extractFailingLoop_ok_snd ts "\n" none s p h
  refine ⟨by simpa [lastFailedCrashPath] using h2, ?_⟩
  intro hall
  rw [h2]
  exact foldl_lastStep_of_no_failed ts none hall

theorem failing_test_path_is_last_overwrite_witness :
    (some (PPath.mk false ["m.py"]) : Option PPath)
      = lastFailedCrashPath
          [TestRec.mk "m.py::t1" "failed"
              (some (CallRec.mk (some (CrashRec.mk (PPath.mk false ["n.py"]) 1 "boom")))),
           TestRec.mk "m.py::t2" "failed"
              (some (CallRec.mk (some (CrashRec.mk (PPath.mk false ["m.py"]) 2 "bang"))))] :=
  (failing_test_path_is_last_overwrite
    (Report.mk none (some
        [TestRec.mk "m.py::t1" "failed"
            (some (CallRec.mk (some (CrashRec.mk (PPath.mk false ["n.py"]) 1 "boom")))),
         TestRec.mk "m.py::t2" "failed"
            (some (CallRec.mk (some (CrashRec.mk (PPath.mk false ["m.py"]) 2 "bang"))))]))
    [TestRec.mk "m.py::t1" "failed"
        (some (CallRec.mk (some (CrashRec.mk (PPath.mk false ["n.py"]) 1 "boom")))),
     TestRec.mk "m.py::t2" "failed"
        (some (CallRec.mk (some (CrashRec.mk (PPath.mk false ["m.py"]) 2 "bang"))))]
    "\n  Name: m.py::t1\n  Path: n.py\n  Line number: 1\n  Message: boom\n  Name: m.py::t2\n  Path: m.py\n  Line number: 2\n  Message: bang\n"
    (some (PPath.mk false ["m.py"])) rfl rfl).1

end Execexam
